import Mathlib

/-!
Shallow embedding of `src/tools/dsm-api/server.py` (DSM Profile API,
TerrainRGB backend).

Python floats are modelled by `ℚ`, with an explicit `FVal` wrapper where the
code tests `math.isfinite`.  External libraries (`pyproj.Geod`, `mercantile`,
`PIL`) are modelled as abstract structures (`GeodApi`, `MercApi`,
`RasterTile`) supplied as parameters: the claims under study are about the
server's own logic, not about the geodesy libraries.  `functools.lru_cache`
is modelled explicitly as an association list in most-recently-used-first
order (`lruAccess`), which is the documented behaviour of the decorator:
the memoised return value is stored whatever it is, including `None`.
-/

/-- A slippy-map tile identifier `(z, x, y)`, as used by `mercantile.tile`
and by `load_tile_image(z, x, y)`. -/
abbrev TileId := ℕ × ℕ × ℕ

/-- A decoded raster tile: `img.size = (width, height)` and
`img.getpixel((px, py))` returning an RGB byte triple (the image is converted
with `.convert('RGB')`). -/
structure RasterTile where
  width : ℕ
  height : ℕ
  px : ℤ → ℤ → ℕ × ℕ × ℕ

/-- Configuration constant `ZOOM_LEVEL = 14` of `server.py`. -/
def ZOOM_LEVEL : ℕ := 14

/-- The `maxsize=128` argument of the `lru_cache` decorator on
`load_tile_image`. -/
def TILE_CACHE_MAXSIZE : ℕ := 128

/-- A Python float value as tested by `math.isfinite`: either a finite value
(modelled by `ℚ`) or a non-finite one (`nan`, `inf`, `-inf`). -/
inductive FVal where
  | finite (q : ℚ)
  | nonfinite
deriving DecidableEq

/-- Abstract interface to `pyproj.Geod(ellps="WGS84")`: `inv` returns the
total geodesic distance between two `(lng, lat)` points (the azimuths are
unused by the server), and `npts` returns the requested number of
intermediate points along the geodesic. -/
structure GeodApi where
  inv : (ℚ × ℚ) → (ℚ × ℚ) → FVal
  npts : (ℚ × ℚ) → (ℚ × ℚ) → ℕ → List (ℚ × ℚ)

/-- Tile bounds as returned by `mercantile.bounds`: `(west, south, east,
north)` in degrees. -/
structure Bounds where
  west : ℚ
  south : ℚ
  east : ℚ
  north : ℚ

/-- Abstract interface to `mercantile`: `tileOf lng lat z` is
`mercantile.tile(lng, lat, z)`, `boundsOf` is `mercantile.bounds`, and `xy`
is the Web-Mercator projection `mercantile.xy(lng, lat)` (transcendental in
the source, abstract here). -/
structure MercApi where
  tileOf : ℚ → ℚ → ℕ → TileId
  boundsOf : TileId → Bounds
  xy : ℚ → ℚ → ℚ × ℚ

/-- The request body `ProfileRequest`: `start` and `end` are `[lng, lat]`
lists, `sample_count` has already passed pydantic validation. -/
structure ProfileRequest where
  start : List ℚ
  end_ : List ℚ
  sample_count : ℕ

/-- The response body `ProfileResponse` of the `/profile` endpoint. -/
structure ProfileResponse where
  distances_m : List ℚ
  elev_m : List (Option ℚ)
  lngs : List ℚ
  lats : List ℚ

/-- The pydantic field declaration
`sample_count: int = Field(120, ge=2, le=2000)`: an omitted value defaults
to `120`; an explicit value is accepted exactly when `2 ≤ v ≤ 2000`
(`none` result = request rejected with a validation error). -/
def validate_sample_count (v : Option ℤ) : Option ℤ :=
  match v with
  | none => some 120
  | some k => if 2 ≤ k ∧ k ≤ 2000 then some k else none

section LRU

variable {α : Type} {β : Type} [DecidableEq α]

/-- Lookup in the memoisation table of `functools.lru_cache` (keys compared
for equality; most recently used entry first). -/
def lruFind (k : α) : List (α × β) → Option β
  | [] => none
  | (k', v) :: rest => if k' = k then some v else lruFind k rest

/-- Remove the entry with key `k` (used when a cache hit promotes the entry
to most-recently-used position). -/
def lruErase (k : α) : List (α × β) → List (α × β)
  | [] => []
  | (k', v) :: rest => if k' = k then rest else (k', v) :: lruErase k rest

/-- One call through a function memoised with
`functools.lru_cache(maxsize)`.  On a hit the cached value is returned and
the entry moves to the most-recently-used position; on a miss the underlying
function `load` is called, its result (whatever it is, including a `None`)
is inserted at the most-recently-used position, and the least-recently-used
entry is dropped if the table would exceed `maxsize`. -/
def lruAccess (maxsize : ℕ) (load : α → β) (cache : List (α × β)) (k : α) :
    β × List (α × β) :=
  match lruFind k cache with
  | some v => (v, (k, v) :: lruErase k cache)
  | none => (load k, ((k, load k) :: cache).take maxsize)

/-- Run a sequence of memoised calls, threading the cache state. -/
def lruRun (maxsize : ℕ) (load : α → β) (cache : List (α × β)) :
    List α → List (α × β)
  | [] => cache
  | k :: ks => lruRun maxsize load (lruAccess maxsize load cache k).2 ks

end LRU

/-- The cache state of `load_tile_image`: the memoised values are
`Optional[Image.Image]`, so a `None` (missing tile) is itself a cached
value. -/
abbrev TileCacheState := List (TileId × Option RasterTile)

/-- The body of `load_tile_image(z, x, y)` without its `lru_cache`
decorator: look the tile file up on disk; `none` models both a nonexistent
file (`os.path.exists` false) and a decode failure (the `except` branch).
The filesystem at the moment of the call is the function `disk`. -/
def load_tile_image (disk : TileId → Option RasterTile) (t : TileId) :
    Option RasterTile :=
  disk t

/-- Python `int()` applied to a rational: truncation toward zero
(`Int.tdiv` truncates toward zero, matching CPython's `float.__trunc__`). -/
def pyTrunc (q : ℚ) : ℤ :=
  Int.tdiv q.num q.den

/-- Lines 136-141 of `server.py`: `px = int(px_frac * width)` followed by
`px = max(0, min(width - 1, px))`. -/
def pixelClamp (w : ℕ) (frac : ℚ) : ℤ :=
  max 0 (min ((w : ℤ) - 1) (pyTrunc (frac * (w : ℚ))))

/-- The Mapbox Terrain-RGB decoding formula of line 146:
`-10000 + ((r * 256 * 256 + g * 256 + b) * 0.1)`. -/
def terrainRGB (r g b : ℕ) : ℚ :=
  -10000 + (((r : ℚ) * 256 * 256 + (g : ℚ) * 256 + (b : ℚ)) * (1 / 10))

/-- `get_elevation_at_point(lng, lat)`: resolve the tile, fetch it through
the `lru_cache` (threading the cache state explicitly), return `none` when
the tile is missing, otherwise compute the fractional pixel position from
the Web-Mercator coordinates, truncate and clamp to the raster, read the
pixel and decode it.  The `try`/`except` around `getpixel` never fires in
the model because the clamped indices are in range and the raster is total. -/
def get_elevation_at_point (merc : MercApi) (disk : TileId → Option RasterTile)
    (cache : TileCacheState) (lng lat : ℚ) : Option ℚ × TileCacheState :=
  let tile := merc.tileOf lng lat ZOOM_LEVEL
  let res := lruAccess TILE_CACHE_MAXSIZE (load_tile_image disk) cache tile
  match res.1, res.2 with
  | none, cache' => (none, cache')
  | some img, cache' =>
    let b := merc.boundsOf tile
    let mxy := merc.xy lng lat
    let minxy := merc.xy b.west b.south
    let maxxy := merc.xy b.east b.north
    let px_frac := (mxy.1 - minxy.1) / (maxxy.1 - minxy.1)
    let py_frac := (maxxy.2 - mxy.2) / (maxxy.2 - minxy.2)
    let px := pixelClamp img.width px_frac
    let py := pixelClamp img.height py_frac
    let rgb := img.px px py
    (some (terrainRGB rgb.1 rgb.2.1 rgb.2.2), cache')

/-- The elevation loop of `get_profile` (lines 198-204): sequential calls to
`get_elevation_at_point` for each sampled point, threading the shared tile
cache. -/
def mapElev (merc : MercApi) (disk : TileId → Option RasterTile) :
    TileCacheState → List (ℚ × ℚ) → List (Option ℚ) × TileCacheState
  | c, [] => ([], c)
  | c, p :: ps =>
    let r := get_elevation_at_point merc disk c p.1 p.2
    let rest := mapElev merc disk r.2 ps
    (r.1 :: rest.1, rest.2)

/-- Point generation of `get_profile` (lines 191-195): the two endpoints
when `n == 2`, otherwise start, `GEOD.npts` intermediate points, end. -/
def profile_points (geod : GeodApi) (lon1 lat1 lon2 lat2 : ℚ) (n : ℕ) :
    List (ℚ × ℚ) :=
  if n = 2 then [(lon1, lat1), (lon2, lat2)]
  else (lon1, lat1) :: (geod.npts (lon1, lat1) (lon2, lat2) (n - 2) ++ [(lon2, lat2)])

/-- Distance generation of `get_profile` (line 207):
`[float(total_dist * i / (n - 1)) for i in range(n)]`. -/
def profile_distances (total_dist : ℚ) (n : ℕ) : List ℚ :=
  (List.range n).map (fun i : ℕ => total_dist * (i : ℚ) / ((n : ℚ) - 1))

/-- The `/profile` endpoint handler `get_profile(req)`.  `tileRootExists`
models `os.path.exists(TILE_DIR)`; an `HTTPException(status_code=s)` is the
`Except.error s` outcome.  The order of checks follows the source: tile
directory, then `[lng, lat]` arity, then the degenerate-distance test, then
point generation, elevation sampling and distance generation. -/
def get_profile (geod : GeodApi) (merc : MercApi)
    (disk : TileId → Option RasterTile) (tileRootExists : Bool)
    (cache : TileCacheState) (req : ProfileRequest) :
    Except ℕ (ProfileResponse × TileCacheState) :=
  if tileRootExists = false then Except.error 500
  else
    match req.start, req.end_ with
    | [lon1, lat1], [lon2, lat2] =>
      let n := req.sample_count
      match geod.inv (lon1, lat1) (lon2, lat2) with
      | FVal.nonfinite =>
        Except.ok (⟨[0], [none], [lon1], [lat1]⟩, cache)
      | FVal.finite total_dist =>
        if total_dist ≤ 0 then
          Except.ok (⟨[0], [none], [lon1], [lat1]⟩, cache)
        else
          let pts := profile_points geod lon1 lat1 lon2 lat2 n
          let ec := mapElev merc disk cache pts
          Except.ok (⟨profile_distances total_dist n, ec.1,
            pts.map Prod.fst, pts.map Prod.snd⟩, ec.2)
    | _, _ => Except.error 400

/-- The `startup` event handler (lines 151-157): prints a warning exactly
when the tile directory does not exist.  Modelled as the predicate "a
warning was printed". -/
def startup_warned (tileRootExists : Bool) : Bool :=
  !tileRootExists

/-! ### Lemmas about the LRU cache model -/

section LRULemmas

variable {α : Type} {β : Type} [DecidableEq α]

theorem lruErase_length_of_find (k : α) :
    ∀ (c : List (α × β)) (v : β), lruFind k c = some v →
      (lruErase k c).length + 1 = c.length := by
  intro c
  induction c with
  | nil => intro v h; simp [lruFind] at h
  | cons p rest ih =>
    intro v h
    by_cases hk : p.1 = k
    · simp [lruErase, hk]
    · simp only [lruFind, hk, if_neg, ite_false] at h
      simp only [lruErase, hk, ite_false, List.length_cons]
      rw [ih _ h]

theorem lruAccess_length (m : ℕ) (load : α → β) (c : List (α × β)) (k : α)
    (h : c.length ≤ m) : ((lruAccess m load c k).2).length ≤ m := by
  unfold lruAccess
  cases hf : lruFind k c with
  | some v =>
    simp only
    rw [List.length_cons, lruErase_length_of_find k c v hf]
    exact h
  | none =>
    simp only
    exact le_trans (List.length_take_le m _) (le_refl m)

theorem lruRun_length (m : ℕ) (load : α → β) :
    ∀ (ks : List α) (c : List (α × β)), c.length ≤ m →
      (lruRun m load c ks).length ≤ m := by
  intro ks
  induction ks with
  | nil => intro c h; exact h
  | cons k ks ih =>
    intro c h
    exact ih _ (lruAccess_length m load c k h)

theorem lruFind_eq_none_iff (k : α) :
    ∀ (c : List (α × β)), lruFind k c = none ↔ k ∉ c.map Prod.fst := by
  intro c
  induction c with
  | nil => simp [lruFind]
  | cons p rest ih =>
    obtain ⟨k', v⟩ := p
    by_cases hk : k' = k
    · simp [lruFind, hk]
    · simp only [lruFind, if_neg hk, List.map_cons, List.mem_cons]
      rw [ih]
      constructor
      · intro h habs
        rcases habs with h1 | h2
        · exact hk h1.symm
        · exact h h2
      · intro h h2
        exact h (Or.inr h2)

theorem take_append_take {γ : Type} :
    ∀ (L l : List γ) (n m : ℕ), n ≤ m →
      (L ++ l.take m).take n = (L ++ l).take n := by
  intro L
  induction L with
  | nil =>
    intro l n m h
    simp only [List.nil_append, List.take_take]
    rw [min_eq_left h]
  | cons x L ih =>
    intro l n m h
    cases n with
    | zero => simp
    | succ n' =>
      simp only [List.cons_append, List.take_succ_cons]
      rw [ih l n' m (le_trans (Nat.le_succ n') h)]

theorem lruRun_nodup (m : ℕ) (load : α → β) :
    ∀ (ks : List α) (c : List (α × β)), ks.Nodup → c.length ≤ m →
      (∀ k ∈ ks, lruFind k c = none) →
      lruRun m load c ks =
        ((ks.reverse.map (fun k => (k, load k))) ++ c).take m := by
  intro ks
  induction ks with
  | nil =>
    intro c _ hlen _
    simp [lruRun, List.take_of_length_le hlen]
  | cons k ks ih =>
    intro c hnd hlen hnone
    have hkc : lruFind k c = none := hnone k (List.mem_cons_self k ks)
    have hstep : (lruAccess m load c k).2 = ((k, load k) :: c).take m := by
      unfold lruAccess
      rw [hkc]
    have hnd' : ks.Nodup := (List.nodup_cons.mp hnd).2
    have hknotin : k ∉ ks := (List.nodup_cons.mp hnd).1
    have hnone' : ∀ k' ∈ ks, lruFind k' (((k, load k) :: c).take m) = none := by
      intro k' hk'
      rw [lruFind_eq_none_iff]
      intro hmem
      have hsub : (((k, load k) :: c).take m).map Prod.fst ⊆
          ((k, load k) :: c).map Prod.fst :=
        List.map_subset Prod.fst (List.take_subset m _)
      have : k' ∈ ((k, load k) :: c).map Prod.fst := hsub hmem
      simp only [List.map_cons] at this
      rcases List.mem_cons.mp this with h1 | h2
      · exact hknotin (h1 ▸ hk')
      · exact (lruFind_eq_none_iff k' c).mp (hnone k' (List.mem_cons_of_mem k hk')) h2
    have hlen' : (((k, load k) :: c).take m).length ≤ m := List.length_take_le m _
    calc lruRun m load c (k :: ks)
        = lruRun m load (((k, load k) :: c).take m) ks := by
          simp only [lruRun]; rw [hstep]
      _ = ((ks.reverse.map (fun k => (k, load k))) ++ ((k, load k) :: c).take m).take m := by
          exact ih _ hnd' hlen' hnone'
      _ = ((ks.reverse.map (fun k => (k, load k))) ++ ((k, load k) :: c)).take m := by
          exact take_append_take _ _ m m (le_refl m)
      _ = (((k :: ks).reverse.map (fun k => (k, load k))) ++ c).take m := by
          simp [List.reverse_cons]

end LRULemmas

/-! ### Lemmas about the profile computation -/

theorem mapElev_length (merc : MercApi) (disk : TileId → Option RasterTile) :
    ∀ (ps : List (ℚ × ℚ)) (c : TileCacheState),
      (mapElev merc disk c ps).1.length = ps.length := by
  intro ps
  induction ps with
  | nil => intro c; rfl
  | cons p ps ih => intro c; simp [mapElev, ih]

theorem profile_distances_length (d : ℚ) (n : ℕ) :
    (profile_distances d n).length = n := by
  unfold profile_distances
  rw [List.length_map, List.length_range]

theorem profile_distances_getD (d : ℚ) (n i : ℕ) (hi : i < n) :
    (profile_distances d n).getD i 0 = d * (i : ℚ) / ((n : ℚ) - 1) := by
  have hlen : i < (profile_distances d n).length := by
    rw [profile_distances_length]; exact hi
  rw [List.getD_eq_getElem _ _ hlen]
  simp only [profile_distances, List.getElem_map, List.getElem_range]

theorem profile_distances_pairwise (d : ℚ) (n : ℕ) (hd : 0 ≤ d) (hn : 2 ≤ n) :
    List.Pairwise (· ≤ ·) (profile_distances d n) := by
  have hcast : (2 : ℚ) ≤ (n : ℚ) := by exact_mod_cast hn
  have hpos : (0 : ℚ) < (n : ℚ) - 1 := by linarith
  unfold profile_distances
  refine List.Pairwise.map (fun i : ℕ => d * (i : ℚ) / ((n : ℚ) - 1)) ?_
    (List.pairwise_lt_range n)
  intro a b hab
  exact (div_le_div_iff_of_pos_right hpos).mpr
    (mul_le_mul_of_nonneg_left (by exact_mod_cast (le_of_lt hab)) hd)

theorem profile_points_two (geod : GeodApi) (lon1 lat1 lon2 lat2 : ℚ) :
    profile_points geod lon1 lat1 lon2 lat2 2 = [(lon1, lat1), (lon2, lat2)] := by
  simp [profile_points]

theorem profile_points_gt (geod : GeodApi) (lon1 lat1 lon2 lat2 : ℚ) (n : ℕ)
    (hn : 2 < n) :
    profile_points geod lon1 lat1 lon2 lat2 n =
      (lon1, lat1) :: (geod.npts (lon1, lat1) (lon2, lat2) (n - 2) ++ [(lon2, lat2)]) := by
  unfold profile_points
  rw [if_neg (by omega)]

theorem profile_points_length (geod : GeodApi) (lon1 lat1 lon2 lat2 : ℚ) (n : ℕ)
    (hn : 2 ≤ n)
    (hnpts : (geod.npts (lon1, lat1) (lon2, lat2) (n - 2)).length = n - 2) :
    (profile_points geod lon1 lat1 lon2 lat2 n).length = n := by
  by_cases h2 : n = 2
  · subst h2; simp [profile_points]
  · rw [profile_points_gt geod lon1 lat1 lon2 lat2 n (by omega)]
    simp [hnpts]
    omega

theorem get_profile_degenerate (geod : GeodApi) (merc : MercApi)
    (disk : TileId → Option RasterTile) (cache : TileCacheState)
    (lon1 lat1 lon2 lat2 : ℚ) (n : ℕ)
    (h : geod.inv (lon1, lat1) (lon2, lat2) = FVal.nonfinite ∨
         ∃ d, geod.inv (lon1, lat1) (lon2, lat2) = FVal.finite d ∧ d ≤ 0) :
    get_profile geod merc disk true cache ⟨[lon1, lat1], [lon2, lat2], n⟩ =
      Except.ok (⟨[0], [none], [lon1], [lat1]⟩, cache) := by
  unfold get_profile
  rcases h with h | ⟨d, hd, hd0⟩
  · simp [h]
  · simp [hd, if_pos hd0]

theorem get_profile_nondegen (geod : GeodApi) (merc : MercApi)
    (disk : TileId → Option RasterTile) (cache : TileCacheState)
    (lon1 lat1 lon2 lat2 : ℚ) (n : ℕ) (d : ℚ)
    (hinv : geod.inv (lon1, lat1) (lon2, lat2) = FVal.finite d) (hd : 0 < d) :
    get_profile geod merc disk true cache ⟨[lon1, lat1], [lon2, lat2], n⟩ =
      Except.ok (⟨profile_distances d n,
        (mapElev merc disk cache (profile_points geod lon1 lat1 lon2 lat2 n)).1,
        (profile_points geod lon1 lat1 lon2 lat2 n).map Prod.fst,
        (profile_points geod lon1 lat1 lon2 lat2 n).map Prod.snd⟩,
        (mapElev merc disk cache (profile_points geod lon1 lat1 lon2 lat2 n)).2) := by
  unfold get_profile
  simp [hinv, if_neg (not_le.mpr hd)]

theorem lruAccess_miss {α β : Type} [DecidableEq α] (m : ℕ) (load : α → β)
    (c : List (α × β)) (k : α) (h : lruFind k c = none) :
    lruAccess m load c k = (load k, ((k, load k) :: c).take m) := by
  unfold lruAccess
  rw [h]

theorem lruAccess_hit {α β : Type} [DecidableEq α] (m : ℕ) (load : α → β)
    (c : List (α × β)) (k : α) (v : β) (h : lruFind k c = some v) :
    lruAccess m load c k = (v, (k, v) :: lruErase k c) := by
  unfold lruAccess
  rw [h]

/-! ### Concrete instances used by witnesses and counterexamples -/

/-- A concrete 256 x 256 raster tile whose pixels are all `(0, 0, 0)`. -/
def tile0 : RasterTile := ⟨256, 256, fun _ _ => (0, 0, 0)⟩

/-- A filesystem state with no tile file present. -/
def disk_missing : TileId → Option RasterTile := fun _ => none

/-- A filesystem state where every tile path exists and decodes to `tile0`. -/
def disk_present : TileId → Option RasterTile := fun _ => some tile0

/-- A concrete tile id at the configured zoom level. -/
def k0 : TileId := (ZOOM_LEVEL, 0, 0)

/-- A trivial concrete mercantile model: every point resolves to `k0`. -/
def mercTriv : MercApi := ⟨fun _ _ _ => k0, fun _ => ⟨0, 0, 1, 1⟩, fun a b => (a, b)⟩

/-- A concrete geodesic model whose total distance is always the finite
value `1000`. -/
def geodKm : GeodApi :=
  ⟨fun _ _ => FVal.finite 1000, fun _ _ k => List.replicate k (5, 5)⟩

/-- A concrete geodesic model whose total distance is always `0`, as
`pyproj` returns for coincident endpoints. -/
def geodZero : GeodApi :=
  ⟨fun _ _ => FVal.finite 0, fun _ _ k => List.replicate k (5, 5)⟩

/-- A concrete well-formed profile request. -/
def reqDemo : ProfileRequest := ⟨[0, 0], [1, 1], 120⟩

/-! ### Claim C1 -/

/-- C1 counterexample: `load_tile_image` is wrapped in
`functools.lru_cache`, which memoises the `None` returned for a missing
tile file.  Starting from an empty cache, looking up `k0` while the file is
absent and then looking it up again after the file has appeared on disk
(`disk_present k0 = some tile0`) still returns the remembered `none`, not
the loaded tile — contradicting the claim that a Missing result is not
cached. -/
theorem C1_counterexample :
    (lruAccess TILE_CACHE_MAXSIZE (load_tile_image disk_missing) [] k0).1 = none ∧
    disk_present k0 = some tile0 ∧
    (lruAccess TILE_CACHE_MAXSIZE (load_tile_image disk_present)
      (lruAccess TILE_CACHE_MAXSIZE (load_tile_image disk_missing) [] k0).2 k0).1
      = none ∧
    (none : Option RasterTile) ≠ some tile0 :=
  ⟨rfl, rfl, rfl, fun h => Option.noConfusion h⟩

/-- C1 amended: for a `TileId` whose file does not exist at lookup time,
`load_tile_image` returns `none` for that call, and the `lru_cache`
decorator caches this `none`: an immediately following lookup of the same
`TileId` returns the remembered `none` whatever the filesystem then
contains (the negative result persists until the entry is evicted). -/
theorem C1_missing_result_is_cached (disk disk' : TileId → Option RasterTile)
    (k : TileId) (h : disk k = none) :
    (lruAccess TILE_CACHE_MAXSIZE (load_tile_image disk) [] k).1 = none ∧
    (lruAccess TILE_CACHE_MAXSIZE (load_tile_image disk')
      (lruAccess TILE_CACHE_MAXSIZE (load_tile_image disk) [] k).2 k).1 = none := by
  have hload : load_tile_image disk k = none := h
  have hempty : lruFind k ([] : TileCacheState) = none := rfl
  have h1 : lruAccess TILE_CACHE_MAXSIZE (load_tile_image disk) [] k =
      ((none : Option RasterTile), [(k, (none : Option RasterTile))]) := by
    rw [lruAccess_miss _ _ _ _ hempty, hload]
    have htake : ([(k, (none : Option RasterTile))]).take TILE_CACHE_MAXSIZE =
        [(k, (none : Option RasterTile))] :=
      List.take_of_length_le (by norm_num [TILE_CACHE_MAXSIZE])
    rw [htake]
  have hfind : lruFind k [(k, (none : Option RasterTile))] = some none := by
    simp [lruFind]
  constructor
  · rw [h1]
  · rw [h1]
    rw [lruAccess_hit _ _ _ _ _ hfind]

/-- C1 witness: the amended behaviour at the concrete input `k0` with the
file absent at the first lookup and present at the second. -/
theorem C1_missing_result_is_cached_witness :
    disk_missing k0 = none ∧
    (lruAccess TILE_CACHE_MAXSIZE (load_tile_image disk_present)
      (lruAccess TILE_CACHE_MAXSIZE (load_tile_image disk_missing) [] k0).2 k0).1
      = none :=
  ⟨rfl, (C1_missing_result_is_cached disk_missing disk_present k0 rfl).2⟩

/-! ### Claim C2 -/

/-- C2 counterexample: with the tile root absent
(`tileRootExists = false`), a concrete well-formed profile request fails
with `HTTPException(status_code=500)` instead of degrading to NoData
samples — contradicting the claim that a missing tile root is never
checked or reported per request. -/
theorem C2_counterexample :
    get_profile geodKm mercTriv disk_present false [] reqDemo =
      Except.error 500 := rfl

/-- C2 amended: an absent tile root directory is reported as a startup
warning, and is additionally checked on every profile request: every
request made while the tile root is absent fails with a 500 error before
any per-sample lookup runs. -/
theorem C2_tile_root_checked_per_request (geod : GeodApi) (merc : MercApi)
    (disk : TileId → Option RasterTile) (cache : TileCacheState)
    (req : ProfileRequest) :
    startup_warned false = true ∧
    get_profile geod merc disk false cache req = Except.error 500 :=
  ⟨rfl, rfl⟩

/-! ### Claim C3 -/

/-- C3: for every pair of endpoints and every requested sample count in
[2, 2000], if the computed geodesic distance is non-finite or ≤ 0,
`get_profile` returns the single-sample degenerate profile
`distances_m = [0.0]`, `elev_m = [None]`, independent of the requested
count; in particular this covers `start == end` whenever the geodesic
inverse returns distance `0` for coincident endpoints. -/
theorem C3_degenerate_single_sample (geod : GeodApi) (merc : MercApi)
    (disk : TileId → Option RasterTile) (cache : TileCacheState)
    (lon1 lat1 lon2 lat2 : ℚ) (n : ℕ)
    (_hn2 : 2 ≤ n) (_hn2000 : n ≤ 2000)
    (hdeg : geod.inv (lon1, lat1) (lon2, lat2) = FVal.nonfinite ∨
      ∃ d, geod.inv (lon1, lat1) (lon2, lat2) = FVal.finite d ∧ d ≤ 0) :
    get_profile geod merc disk true cache ⟨[lon1, lat1], [lon2, lat2], n⟩ =
      Except.ok (⟨[0], [none], [lon1], [lat1]⟩, cache) ∧
    (geod.inv (lon1, lat1) (lon1, lat1) = FVal.finite 0 →
      get_profile geod merc disk true cache ⟨[lon1, lat1], [lon1, lat1], n⟩ =
        Except.ok (⟨[0], [none], [lon1], [lat1]⟩, cache)) := by
  constructor
  · exact get_profile_degenerate geod merc disk cache lon1 lat1 lon2 lat2 n hdeg
  · intro hself
    exact get_profile_degenerate geod merc disk cache lon1 lat1 lon1 lat1 n
      (Or.inr ⟨0, hself, le_refl 0⟩)

/-- C3 witness: the degenerate behaviour at concrete inputs with a
zero-distance geodesic model and requested count 120. -/
theorem C3_degenerate_single_sample_witness :
    2 ≤ 120 ∧ (120 : ℕ) ≤ 2000 ∧
    geodZero.inv ((0 : ℚ), (0 : ℚ)) ((1 : ℚ), (1 : ℚ)) = FVal.finite 0 ∧
    get_profile geodZero mercTriv disk_present true [] ⟨[0, 0], [1, 1], 120⟩ =
      Except.ok (⟨[0], [none], [0], [0]⟩, []) :=
  ⟨by norm_num, by norm_num, rfl,
    (C3_degenerate_single_sample geodZero mercTriv disk_present [] 0 0 1 1 120
      (by norm_num) (by norm_num) (Or.inr ⟨0, rfl, le_refl 0⟩)).1⟩

/-! ### Claim C4 -/

/-- C4: for every non-degenerate request (finite positive total distance,
count `n ≥ 2`), the reported distances satisfy
`distances_m[i] = total * i / (n - 1)` for every `i < n`; consequently
`distances_m[0] = 0` and `distances_m` is non-decreasing.  These are evenly
spaced fractions of the total distance (the sampled points themselves play
no role in the distances). -/
theorem C4_distances_even_fractions (geod : GeodApi) (merc : MercApi)
    (disk : TileId → Option RasterTile) (cache : TileCacheState)
    (lon1 lat1 lon2 lat2 : ℚ) (n : ℕ) (d : ℚ)
    (hn : 2 ≤ n)
    (hinv : geod.inv (lon1, lat1) (lon2, lat2) = FVal.finite d) (hd : 0 < d) :
    ∃ resp cache',
      get_profile geod merc disk true cache ⟨[lon1, lat1], [lon2, lat2], n⟩ =
        Except.ok (resp, cache') ∧
      resp.distances_m.length = n ∧
      (∀ i, i < n → resp.distances_m.getD i 0 = d * (i : ℚ) / ((n : ℚ) - 1)) ∧
      resp.distances_m.getD 0 0 = 0 ∧
      List.Pairwise (· ≤ ·) resp.distances_m := by
  refine ⟨_, _,
    get_profile_nondegen geod merc disk cache lon1 lat1 lon2 lat2 n d hinv hd,
    profile_distances_length d n, ?_, ?_, ?_⟩
  · intro i hi
    exact profile_distances_getD d n i hi
  · rw [profile_distances_getD d n 0 (by omega)]
    simp
  · exact profile_distances_pairwise d n (le_of_lt hd) hn

/-- C4 witness: a concrete non-degenerate request (total distance 1000,
count 2). -/
theorem C4_distances_even_fractions_witness :
    2 ≤ 2 ∧ geodKm.inv ((0 : ℚ), (0 : ℚ)) ((1 : ℚ), (1 : ℚ)) = FVal.finite 1000 ∧
    (0 : ℚ) < 1000 ∧
    (∃ resp cache',
      get_profile geodKm mercTriv disk_present true [] ⟨[0, 0], [1, 1], 2⟩ =
        Except.ok (resp, cache') ∧
      resp.distances_m.length = 2 ∧
      (∀ i, i < 2 → resp.distances_m.getD i 0 = 1000 * (i : ℚ) / ((2 : ℚ) - 1)) ∧
      resp.distances_m.getD 0 0 = 0 ∧
      List.Pairwise (· ≤ ·) resp.distances_m) :=
  ⟨le_refl 2, rfl, by norm_num,
    by
      have h := C4_distances_even_fractions geodKm mercTriv disk_present [] 0 0 1 1 2 1000
        (le_refl 2) rfl (by norm_num)
      simpa using h⟩

/-! ### Claim C5 -/

/-- C5: for every non-degenerate request with count `n`, the four output
arrays all have length exactly `n`; with `n = 2` the sampled points are
exactly the two endpoints (start first, end last), and with `n > 2` they
are the start, the `n - 2` intermediate points produced by the geodesic
sampler, then the end. -/
theorem C5_sample_layout (geod : GeodApi) (merc : MercApi)
    (disk : TileId → Option RasterTile) (cache : TileCacheState)
    (lon1 lat1 lon2 lat2 : ℚ) (n : ℕ) (d : ℚ)
    (hn : 2 ≤ n)
    (hinv : geod.inv (lon1, lat1) (lon2, lat2) = FVal.finite d) (hd : 0 < d)
    (hnpts : (geod.npts (lon1, lat1) (lon2, lat2) (n - 2)).length = n - 2) :
    ∃ resp cache',
      get_profile geod merc disk true cache ⟨[lon1, lat1], [lon2, lat2], n⟩ =
        Except.ok (resp, cache') ∧
      resp.distances_m.length = n ∧ resp.elev_m.length = n ∧
      resp.lngs.length = n ∧ resp.lats.length = n ∧
      (n = 2 → resp.lngs = [lon1, lon2] ∧ resp.lats = [lat1, lat2]) ∧
      (2 < n →
        resp.lngs = lon1 ::
          ((geod.npts (lon1, lat1) (lon2, lat2) (n - 2)).map Prod.fst ++ [lon2]) ∧
        resp.lats = lat1 ::
          ((geod.npts (lon1, lat1) (lon2, lat2) (n - 2)).map Prod.snd ++ [lat2])) := by
  have hptlen : (profile_points geod lon1 lat1 lon2 lat2 n).length = n :=
    profile_points_length geod lon1 lat1 lon2 lat2 n hn hnpts
  refine ⟨_, _,
    get_profile_nondegen geod merc disk cache lon1 lat1 lon2 lat2 n d hinv hd,
    profile_distances_length d n, ?_, ?_, ?_, ?_, ?_⟩
  · rw [mapElev_length, hptlen]
  · rw [List.length_map, hptlen]
  · rw [List.length_map, hptlen]
  · intro h2
    subst h2
    rw [profile_points_two]
    exact ⟨rfl, rfl⟩
  · intro h2
    rw [profile_points_gt geod lon1 lat1 lon2 lat2 n h2]
    constructor
    · simp
    · simp

/-- C5 witness: a concrete non-degenerate request with count 3 and one
intermediate point. -/
theorem C5_sample_layout_witness :
    2 ≤ 3 ∧ geodKm.inv ((0 : ℚ), (0 : ℚ)) ((1 : ℚ), (1 : ℚ)) = FVal.finite 1000 ∧
    (0 : ℚ) < 1000 ∧
    (geodKm.npts ((0 : ℚ), (0 : ℚ)) ((1 : ℚ), (1 : ℚ)) (3 - 2)).length = 3 - 2 ∧
    (∃ resp cache',
      get_profile geodKm mercTriv disk_present true [] ⟨[0, 0], [1, 1], 3⟩ =
        Except.ok (resp, cache') ∧
      resp.distances_m.length = 3 ∧ resp.elev_m.length = 3 ∧
      resp.lngs.length = 3 ∧ resp.lats.length = 3 ∧
      (3 = 3 → resp.lngs = [0, 5, 1] ∧ resp.lats = [0, 5, 1])) := by
  refine ⟨by norm_num, rfl, by norm_num, rfl, ?_⟩
  obtain ⟨resp, cache', heq, hlen1, hlen2, hlen3, hlen4, _, hgt⟩ :=
    C5_sample_layout geodKm mercTriv disk_present [] 0 0 1 1 3 1000
      (by norm_num) rfl (by norm_num) rfl
  refine ⟨resp, cache', heq, hlen1, hlen2, hlen3, hlen4, fun _ => ?_⟩
  obtain ⟨hlngs, hlats⟩ := hgt (by norm_num)
  constructor
  · rw [hlngs]; rfl
  · rw [hlats]; rfl

/-! ### Claim C6 -/

/-- C6: the decoded elevation for byte channels `(R, G, B)` each in
[0, 255] equals `-10000 + (R*65536 + G*256 + B) * 0.1` meters; in
particular `decode(0,0,0) = -10000.0` and
`decode(255,255,255) = 1667721.5`. -/
theorem C6_terrain_rgb_decode :
    (∀ r g b : ℕ, r ≤ 255 → g ≤ 255 → b ≤ 255 →
      terrainRGB r g b = -10000 + ((r * 65536 + g * 256 + b : ℕ) : ℚ) * (1 / 10)) ∧
    terrainRGB 0 0 0 = -10000 ∧
    terrainRGB 255 255 255 = 1667721.5 := by
  refine ⟨?_, ?_, ?_⟩
  · intro r g b _ _ _
    unfold terrainRGB
    push_cast
    ring
  · norm_num [terrainRGB]
  · norm_num [terrainRGB]

/-- C6 witness: the decode formula applied at the concrete channel triple
(128, 0, 0). -/
theorem C6_terrain_rgb_decode_witness :
    (128 : ℕ) ≤ 255 ∧
    terrainRGB 128 0 0 = -10000 + ((128 * 65536 + 0 * 256 + 0 : ℕ) : ℚ) * (1 / 10) :=
  ⟨by norm_num,
    C6_terrain_rgb_decode.1 128 0 0 (by norm_num) (by norm_num) (by norm_num)⟩

/-! ### Claim C7 -/

/-- C7: for every sequence of tile lookups starting from an empty cache,
the tile cache never holds more than `TILE_CACHE_MAXSIZE = 128` entries;
and for a sequence of pairwise-distinct tile ids, the resulting cache is
exactly the 128 most recently requested entries in most-recent-first
order — i.e. the least-recently-touched ids are the ones evicted. -/
theorem C7_cache_bound_lru :
    (∀ (load : TileId → Option RasterTile) (ks : List TileId),
      (lruRun TILE_CACHE_MAXSIZE load [] ks).length ≤ TILE_CACHE_MAXSIZE) ∧
    (∀ (load : TileId → Option RasterTile) (ks : List TileId), ks.Nodup →
      lruRun TILE_CACHE_MAXSIZE load [] ks =
        (ks.reverse.map (fun k => (k, load k))).take TILE_CACHE_MAXSIZE) ∧
    (∀ (load : TileId → Option RasterTile) (ks : List TileId), ks.Nodup →
      (lruRun TILE_CACHE_MAXSIZE load [] ks).map Prod.fst =
        ks.reverse.take TILE_CACHE_MAXSIZE) := by
  have hchar : ∀ (load : TileId → Option RasterTile) (ks : List TileId),
      ks.Nodup →
      lruRun TILE_CACHE_MAXSIZE load [] ks =
        (ks.reverse.map (fun k => (k, load k))).take TILE_CACHE_MAXSIZE := by
    intro load ks hnd
    have h := lruRun_nodup TILE_CACHE_MAXSIZE load ks [] hnd
      (by norm_num) (fun k _ => rfl)
    simpa using h
  refine ⟨?_, hchar, ?_⟩
  · intro load ks
    exact lruRun_length TILE_CACHE_MAXSIZE load ks [] (by norm_num)
  · intro load ks hnd
    rw [hchar load ks hnd, ← List.map_take, List.map_map]
    have hid : (Prod.fst ∘ fun k : TileId => (k, load k)) = id := rfl
    rw [hid, List.map_id]

/-- The 129 pairwise-distinct tile ids used as the C7 witness input. -/
def c7keys : List TileId := (List.range 129).map (fun i => (ZOOM_LEVEL, i, 0))

/-- C7 witness: after 129 distinct requests the resident keys are exactly
the 128 most recent ones. -/
theorem C7_cache_bound_lru_witness :
    c7keys.Nodup ∧ TILE_CACHE_MAXSIZE < c7keys.length ∧
    (lruRun TILE_CACHE_MAXSIZE (fun _ => (none : Option RasterTile)) [] c7keys).map
        Prod.fst =
      c7keys.reverse.take TILE_CACHE_MAXSIZE := by
  have hnd : c7keys.Nodup := by
    refine List.Nodup.map ?_ (List.nodup_range 129)
    intro a b hab
    have := congrArg (fun p : TileId => p.2.1) hab
    simpa using this
  exact ⟨hnd, by norm_num [c7keys, TILE_CACHE_MAXSIZE],
    C7_cache_bound_lru.2.2 (fun _ => (none : Option RasterTile)) c7keys hnd⟩

/-! ### Claim C8 -/

/-- C8: the pixel indices used for the elevation lookup are obtained by
truncating the fractional position and clamping (`pixelClamp`, used by
`get_elevation_at_point` on both axes), so for any fractional position and
any raster with `width ≥ 1` and `height ≥ 1` the resulting indices lie in
`[0, width-1] × [0, height-1]`; in particular a point exactly on a tile
edge never yields an out-of-range index. -/
theorem C8_pixel_clamped (w h : ℕ) (fx fy : ℚ) (hw : 1 ≤ w) (hh : 1 ≤ h) :
    0 ≤ pixelClamp w fx ∧ pixelClamp w fx ≤ (w : ℤ) - 1 ∧
    0 ≤ pixelClamp h fy ∧ pixelClamp h fy ≤ (h : ℤ) - 1 := by
  have hw1 : (1 : ℤ) ≤ (w : ℤ) := by exact_mod_cast hw
  have hh1 : (1 : ℤ) ≤ (h : ℤ) := by exact_mod_cast hh
  refine ⟨le_max_left 0 _, ?_, le_max_left 0 _, ?_⟩
  · exact max_le (by omega) (min_le_left _ _)
  · exact max_le (by omega) (min_le_left _ _)

/-- C8 witness: the clamp at a 256-pixel raster with fraction exactly 1 (a
point on the far tile edge). -/
theorem C8_pixel_clamped_witness :
    (1 : ℕ) ≤ 256 ∧ 0 ≤ pixelClamp 256 1 ∧ pixelClamp 256 1 ≤ (256 : ℤ) - 1 :=
  ⟨by norm_num, (C8_pixel_clamped 256 256 1 1 (by norm_num) (by norm_num)).1,
    (C8_pixel_clamped 256 256 1 1 (by norm_num) (by norm_num)).2.1⟩

/-! ### Claim C9 -/

/-- C9: a sampled point whose tile file does not exist (or fails to
decode — both are the `none` filesystem outcome) yields elevation `none`
rather than an exception, provided the tile is not already resident in the
cache; and the elevation loop never aborts: the elevation list of a profile
always has one entry per sampled point, whatever `none`s it contains. -/
theorem C9_missing_tile_isolated :
    (∀ (merc : MercApi) (disk : TileId → Option RasterTile)
        (cache : TileCacheState) (lng lat : ℚ),
      lruFind (merc.tileOf lng lat ZOOM_LEVEL) cache = none →
      disk (merc.tileOf lng lat ZOOM_LEVEL) = none →
      (get_elevation_at_point merc disk cache lng lat).1 = none) ∧
    (∀ (merc : MercApi) (disk : TileId → Option RasterTile)
        (cache : TileCacheState) (ps : List (ℚ × ℚ)),
      (mapElev merc disk cache ps).1.length = ps.length) := by
  constructor
  · intro merc disk cache lng lat hfind hdisk
    have hres : lruAccess TILE_CACHE_MAXSIZE (load_tile_image disk) cache
        (merc.tileOf lng lat ZOOM_LEVEL) =
        ((none : Option RasterTile),
          ((merc.tileOf lng lat ZOOM_LEVEL, (none : Option RasterTile)) :: cache).take
            TILE_CACHE_MAXSIZE) := by
      rw [lruAccess_miss _ _ _ _ hfind]
      rw [show load_tile_image disk (merc.tileOf lng lat ZOOM_LEVEL) = none from hdisk]
    simp only [get_elevation_at_point, hres]
  · intro merc disk cache ps
    exact mapElev_length merc disk ps cache

/-- C9 witness: a cold cache and an absent tile file at a concrete point,
and a three-point elevation loop returning three entries. -/
theorem C9_missing_tile_isolated_witness :
    lruFind (mercTriv.tileOf 0 0 ZOOM_LEVEL) ([] : TileCacheState) = none ∧
    disk_missing (mercTriv.tileOf 0 0 ZOOM_LEVEL) = none ∧
    (get_elevation_at_point mercTriv disk_missing [] 0 0).1 = none ∧
    (mapElev mercTriv disk_missing [] [(0, 0), (1, 1), (2, 2)]).1.length = 3 :=
  ⟨rfl, rfl, C9_missing_tile_isolated.1 mercTriv disk_missing [] 0 0 rfl rfl,
    (C9_missing_tile_isolated.2 mercTriv disk_missing [] _).trans rfl⟩

/-! ### Claim C10 -/

/-- C10: an omitted `sampleCount` defaults to 120, and the request model
accepts an explicit value exactly when it lies in [2, 2000]; out-of-range
values are rejected at the boundary. -/
theorem C10_sample_count_field :
    validate_sample_count none = some 120 ∧
    (∀ v : ℤ, validate_sample_count (some v) = some v ↔ (2 ≤ v ∧ v ≤ 2000)) ∧
    (∀ v : ℤ, validate_sample_count (some v) = none ↔ ¬(2 ≤ v ∧ v ≤ 2000)) := by
  refine ⟨rfl, ?_, ?_⟩
  · intro v
    unfold validate_sample_count
    by_cases hv : 2 ≤ v ∧ v ≤ 2000
    · simp [hv]
    · simp [hv]
  · intro v
    unfold validate_sample_count
    by_cases hv : 2 ≤ v ∧ v ≤ 2000
    · simp [hv]
    · simp [hv]
